import Mathlib

/-!
Verification development for the AI-powered paper generator backend.

The visible source of the repository is `main.py` (FastAPI bootstrap: router
registration, the `/health` endpoint, and the `startup_event` hook that checks
the Qdrant collection, initializes the exam-service controller, and ingests the
PDFs found in the `pdfs` folder) together with a Streamlit test client.  The
pipeline components themselves (Chunker, Ingestion Coordinator, Question
Generator, Paper Assembler, Exam Service Controller, Vector Index adapter) are
imported by `main.py` from modules that are not part of the visible source, so
they are modelled here from the specification, as marked on each definition.

Strings of the program are modelled as Lean `String`s; document text is
modelled as its character sequence (`List Char`).
-/

set_option autoImplicit false

namespace PaperGen

/-! ### Embedding of src/main.py -/

/-- Controller lifecycle states (spec §3 Service State, §4.8). -/
inductive ServiceState
  | uninitialized
  | initializing
  | ready
  | failed
  deriving DecidableEq, Repr

/-- Shape of the JSON object returned by the `/health` endpoint in
src/main.py (`health_check`). -/
structure HealthResponse where
  status : String
  exam_generation : Bool
  deriving DecidableEq, Repr

/-- Process-wide state visible to `main.py`: the import-time flags
`EXAM_GEN_AVAILABLE` and `SERVICES_AVAILABLE`, and the exam-service
controller's lifecycle state. -/
structure ProcessState where
  examGenAvailable : Bool
  servicesAvailable : Bool
  controllerState : ServiceState
  deriving DecidableEq, Repr

/-- From src/main.py `health_check`: returns `status: ok` together with the
import-time flag `EXAM_GEN_AVAILABLE`; it reads nothing else of the process
state. -/
def health_check (st : ProcessState) : HealthResponse :=
  { status := "ok", exam_generation := st.examGenAvailable }

/-- From src/main.py import-time router registration: five routers are always
included, and the exam-generation router is included exactly when the
import-time flag `EXAM_GEN_AVAILABLE` is set. -/
def registeredRouters (examGenAvailable : Bool) : List String :=
  ["generate_paper", "saved_papers", "auth", "index", "search"] ++
    (if examGenAvailable then ["exam_generation"] else [])

/-- One `print` made by `startup_event` in src/main.py, in order. -/
inductive LogEntry
  | collectionChecked
  | initServiceMsg
  | initOk
  | initFailedMsg
  | initErrorMsg (e : String)
  | ingested (f : String)
  | failedIngest (f : String) (e : String)
  | noPdfFolder
  deriving DecidableEq, Repr

/-- Outcome of the exam-service controller initialization attempt inside
`startup_event`: the import of `services.exam_service` may raise, the call
`initialize_controller()` may raise, or it returns a boolean. -/
inductive InitOutcome
  | importError (e : String)
  | raised (e : String)
  | returned (b : Bool)
  deriving DecidableEq, Repr

/-- From src/main.py `startup_event`, the `try` block around the exam-service
controller initialization: every exception is caught and printed, every
boolean result is printed; nothing escapes the block. -/
def initControllerLog : InitOutcome → List LogEntry
  | InitOutcome.importError e => [LogEntry.initErrorMsg e]
  | InitOutcome.raised e => [LogEntry.initServiceMsg, LogEntry.initErrorMsg e]
  | InitOutcome.returned true => [LogEntry.initServiceMsg, LogEntry.initOk]
  | InitOutcome.returned false => [LogEntry.initServiceMsg, LogEntry.initFailedMsg]

/-- From src/main.py: `filename.lower().endswith(".pdf")`. -/
def endsWithPdf (f : String) : Bool :=
  f.toLower.endsWith ".pdf"

/-- From src/main.py `startup_event`, the ingestion loop over the PDF folder:
each file ending in `.pdf` is passed to `ingest_to_qdrant` inside a `try`;
a success prints `Ingested`, an exception is caught and prints `Failed to
ingest`, and the loop continues either way.  The effect of
`ingest_to_qdrant` is abstracted as the function `ing`, whose `Except.error`
case models a raised exception. -/
def ingestLoop (ing : String → Except String Unit) : List String → List LogEntry
  | [] => []
  | f :: rest =>
    if endsWithPdf f then
      (match ing f with
        | Except.ok _ => LogEntry.ingested f
        | Except.error e => LogEntry.failedIngest f e) :: ingestLoop ing rest
    else ingestLoop ing rest

/-- From src/main.py `startup_event`: check the collection, then attempt the
exam-service controller initialization (outcome `o`, fully caught), then — in
the same call, whatever `o` was — ingest the PDF folder when it exists.  The
function returns the ordered log of prints; it is total: no outcome of the
controller initialization or of any single ingestion aborts it. -/
def startup_event (examGen : Bool) (o : InitOutcome) (pdfFolderExists : Bool)
    (ing : String → Except String Unit) (files : List String) : List LogEntry :=
  LogEntry.collectionChecked ::
    ((if examGen then initControllerLog o else []) ++
      (if pdfFolderExists then ingestLoop ing files else [LogEntry.noPdfFolder]))

/-- The file named by an ingestion-loop log entry, if any. -/
def logFile : LogEntry → Option String
  | LogEntry.ingested f => some f
  | LogEntry.failedIngest f _ => some f
  | _ => none

/-- Files for which `ingest_to_qdrant` was attempted, in order, read off a
startup log. -/
def attemptedFiles (log : List LogEntry) : List String :=
  log.filterMap logFile

/-- Routers served once startup has run.  `startup_event` in src/main.py never
touches the FastAPI routing table — routers are registered at import time
only — so this is `registeredRouters` regardless of every startup outcome. -/
def routersAfterStartup (examGen : Bool) (_o : InitOutcome) (_pdfFolderExists : Bool)
    (_ing : String → Except String Unit) (_files : List String) : List String :=
  registeredRouters examGen

/-! ### Question generation (modelled from the spec) -/

/-- Question types (spec §3). -/
inductive QType
  | MCQ
  | SAQ
  | LAQ
  deriving DecidableEq, Repr

/-- Difficulty levels (spec §3). -/
inductive Difficulty
  | easy
  | medium
  | hard
  deriving DecidableEq, Repr

/-- Modelled from the spec: a Generated Question (§3) — type, prompt, options
(MCQ only; label paired with a correctness mark), answer or answer hint,
marks, and grounding chunk identifiers.  The Question Generator producing it
is not part of the visible source. -/
structure GeneratedQuestion where
  qtype : QType
  prompt : String
  options : List (String × Bool)
  answer : String
  marks : Nat
  sourceChunkIds : List String
  deriving DecidableEq, Repr

/-- Per-question generation failures (spec §7 error taxonomy, restricted to the
cases reaching the Question Generator's caller). -/
inductive GenFailure
  | backendTimeout
  | transientBackendError
  | malformedQuestion
  deriving DecidableEq, Repr

/-- Result of one per-question generation call. -/
abbrev GenResult := Except GenFailure GeneratedQuestion

/-- Modelled from the spec: post-parse validation of a generated question
(§4.6, §3 invariants).  MCQ: exactly 4 options with distinct labels, exactly
one marked correct; SAQ/LAQ: non-empty prompt and non-empty answer; every
question: marks > 0. -/
def validQuestion (q : GeneratedQuestion) : Bool :=
  decide (0 < q.marks) &&
    (match q.qtype with
      | QType.MCQ =>
          decide (q.options.length = 4) &&
          decide ((q.options.filter (fun o => o.2)).length = 1) &&
          decide ((q.options.map (fun o => o.1)).Nodup)
      | QType.SAQ => !q.prompt.isEmpty && !q.answer.isEmpty
      | QType.LAQ => !q.prompt.isEmpty && !q.answer.isEmpty)

/-- Modelled from the spec: the Question Generator's invoke–validate–retry
logic (§4.6), which is not part of the visible source.  `backend n` is the
generation backend's response on attempt `n` (`Except.error` models a timeout
or transient failure).  An invalid parsed result is retried exactly once with
a corrective instruction; a second invalid result fails with
`MalformedQuestion`. -/
def generateQuestion (backend : Nat → GenResult) : GenResult :=
  match backend 0 with
  | Except.error e => Except.error e
  | Except.ok q =>
    if validQuestion q then Except.ok q
    else
      match backend 1 with
      | Except.error e => Except.error e
      | Except.ok q2 =>
        if validQuestion q2 then Except.ok q2
        else Except.error GenFailure.malformedQuestion

/-! ### Paper assembly and the controller gate (modelled from the spec) -/

/-- Inbound generation request (spec §6): heading, student-info flags,
per-type counts and difficulties. -/
structure PaperSpec where
  heading : String
  includeRoll : Bool
  includeName : Bool
  includeClassSection : Bool
  mcqCount : Nat
  saqCount : Nat
  laqCount : Nat
  mcqDifficulty : Difficulty
  saqDifficulty : Difficulty
  laqDifficulty : Difficulty
  deriving DecidableEq, Repr

/-- The successfully generated questions of a result list, in order. -/
def successes (rs : List GenResult) : List GeneratedQuestion :=
  rs.filterMap (fun r => match r with
    | Except.ok q => some q
    | Except.error _ => none)

/-- Sum of the marks of a question list. -/
def marksSum (qs : List GeneratedQuestion) : Nat :=
  (qs.map (fun q => q.marks)).sum

/-- Modelled from the spec: an assembled Paper (§3) — heading, student-info
flags, questions grouped by type, total marks, completeness and grounding
flags. -/
structure Paper where
  heading : String
  includeRoll : Bool
  includeName : Bool
  includeClassSection : Bool
  questions : List GeneratedQuestion
  total_marks : Nat
  complete : Bool
  content_based : Bool
  deriving DecidableEq, Repr

/-- Modelled from the spec: the Paper Assembler (§4.7), which is not part of
the visible source.  It keeps exactly the succeeded questions, grouped by type
(MCQ, then SAQ, then LAQ), computes the total as the sum over the groups,
marks the paper `complete` exactly when every achieved count equals its
requested count, and always sets `content_based`.  It never fails and never
invents placeholder questions. -/
def assemble (ps : PaperSpec) (mcqR saqR laqR : List GenResult) : Paper :=
  { heading := ps.heading
    includeRoll := ps.includeRoll
    includeName := ps.includeName
    includeClassSection := ps.includeClassSection
    questions := successes mcqR ++ successes saqR ++ successes laqR
    total_marks :=
      marksSum (successes mcqR) + marksSum (successes saqR) + marksSum (successes laqR)
    complete :=
      decide ((successes mcqR).length = ps.mcqCount ∧
        (successes saqR).length = ps.saqCount ∧
        (successes laqR).length = ps.laqCount)
    content_based := true }

/-- Failure of a whole generation request (spec §7). -/
inductive GenError
  | serviceNotReady
  deriving DecidableEq, Repr

/-- Modelled from the spec: the Exam Service Controller's mutable state
(§4.8) — lifecycle state, the "latest paper" cell, and the retained failure
reason. -/
structure Controller where
  state : ServiceState
  latestPaper : Option Paper
  failureReason : Option String
  deriving DecidableEq, Repr

/-- Modelled from the spec: handling of one generation request by the
controller (§4.8 readiness gate with §4.7 assembly), not part of the visible
source.  When the state is `ready` the paper is assembled from the per-type
generation results and stored as the latest paper; otherwise the request is
rejected with `ServiceNotReady` and the controller is left untouched. -/
def handleGenerate (ctl : Controller) (ps : PaperSpec)
    (mcqR saqR laqR : List GenResult) : Controller × Except GenError Paper :=
  if ctl.state = ServiceState.ready then
    ({ ctl with latestPaper := some (assemble ps mcqR saqR laqR) },
      Except.ok (assemble ps mcqR saqR laqR))
  else
    (ctl, Except.error GenError.serviceNotReady)

/-! ### Chunker (modelled from the spec) -/

/-- Modelled from the spec: the Chunker (§4.1), which is not part of the
visible source.  Sliding-window chunking of the document's character
sequence: a text that fits in `size` is a single chunk; otherwise the first
`size` characters form a chunk and chunking continues from position
`size - overlap`, so each later chunk repeats the last `overlap` characters
of its predecessor.  The step is written `max 1 (size - overlap)` so that
the definition makes progress for every parameter pair; whenever
`overlap < size` — the only regime the spec uses — it equals
`size - overlap`.  The empty text yields no chunk, so no chunk is ever
empty. -/
def chunk (size overlap : Nat) (t : List Char) : List (List Char) :=
  if t = [] then []
  else if t.length ≤ size then [t]
  else t.take size :: chunk size overlap (t.drop (max 1 (size - overlap)))
termination_by t.length
decreasing_by
  simp only [List.length_drop]
  omega

/-- Reassembly of the chunks after the first: each drops its `overlap`-long
repeated head before concatenation. -/
def reassembleTail (overlap : Nat) (cs : List (List Char)) : List Char :=
  (cs.map (List.drop overlap)).flatten

/-- Reassembly of a chunk sequence: the first chunk whole, every later chunk
with its `overlap`-long repeated head removed. -/
def reassemble (overlap : Nat) : List (List Char) → List Char
  | [] => []
  | c :: cs => c ++ reassembleTail overlap cs

/-! ### Vector index and ingestion (modelled from the spec) -/

/-- Modelled from the spec: one record of the Vector Index (§4.3, §6 wire
contract) — vector plus payload; the fixed-dimension float vector is
abstracted as an integer list. -/
structure IndexRecord where
  vector : List Int
  payload : List Char
  deriving DecidableEq, Repr

/-- Modelled from the spec: a collection's contents, as the ordered list of
(id, record) pairs it holds. -/
abbrev Index := List (String × IndexRecord)

/-- The ids held by an index, in order. -/
def indexIds (idx : Index) : List String :=
  idx.map Prod.fst

/-- Modelled from the spec: `upsert` with overwrite semantics keyed by id
(§4.3) — an existing id has its record replaced in place, a new id is
appended. -/
def upsert (idx : Index) (id : String) (r : IndexRecord) : Index :=
  if idx.any (fun e => decide (e.1 = id)) then
    idx.map (fun e => if e.1 = id then (id, r) else e)
  else
    idx ++ [(id, r)]

/-- Modelled from the spec: chunk ids are derived deterministically from the
document id plus the chunk position (§4.4). -/
def chunkId (docId : String) (pos : Nat) : String :=
  docId ++ "#" ++ toString pos

/-- Modelled from the spec: a Document (§3) — identifier and extracted
text. -/
structure Document where
  docId : String
  text : List Char
  deriving DecidableEq, Repr

/-- The records ingestion writes for a document: one per chunk, keyed by
`chunkId`, with the chunk's embedding (abstracted as `emb`) and the chunk
text as payload. -/
def chunkRecords (size overlap : Nat) (emb : List Char → List Int)
    (doc : Document) : List (String × IndexRecord) :=
  (chunk size overlap doc.text).enum.map
    (fun p => (chunkId doc.docId p.1, { vector := emb p.2, payload := p.2 }))

/-- Modelled from the spec: the Ingestion Coordinator's indexing step (§4.4),
not part of the visible source — chunk the document, embed each chunk, and
upsert every record into the collection. -/
def ingestDoc (size overlap : Nat) (emb : List Char → List Int)
    (doc : Document) (idx : Index) : Index :=
  (chunkRecords size overlap emb doc).foldl (fun acc p => upsert acc p.1 p.2) idx

/-! ### Collection management (modelled from the spec) -/

/-- Vector-index errors surfaced to callers (spec §7). -/
inductive IndexErr
  | schemaMismatch
  deriving DecidableEq, Repr

/-- The collections of a vector-index server: name and vector dimension of
each. -/
abbrev Collections := List (String × Nat)

/-- Modelled from the spec: `ensure_collection(name, dimension)` (§4.3), not
part of the visible source — creates the collection if absent; if present,
verifies the existing dimension matches, failing with `SchemaMismatch`
otherwise; the mismatch is returned directly, with no retry. -/
def ensure_collection (cols : Collections) (name : String) (dim : Nat) :
    Except IndexErr Collections :=
  match cols.find? (fun c => decide (c.1 = name)) with
  | none => Except.ok (cols ++ [(name, dim)])
  | some c => if c.2 = dim then Except.ok cols else Except.error IndexErr.schemaMismatch

/-! ### Concrete inputs used by witnesses -/

/-- A concrete generation request used by witnesses. -/
def psW : PaperSpec :=
  { heading := "Computer Science Exam"
    includeRoll := true
    includeName := true
    includeClassSection := true
    mcqCount := 3
    saqCount := 1
    laqCount := 0
    mcqDifficulty := Difficulty.easy
    saqDifficulty := Difficulty.medium
    laqDifficulty := Difficulty.medium }

/-- A concrete malformed MCQ (3 options, two of them marked correct). -/
def badQ : GeneratedQuestion :=
  { qtype := QType.MCQ
    prompt := "Pick one"
    options := [("a", true), ("b", true), ("c", false)]
    answer := "a"
    marks := 1
    sourceChunkIds := [] }

/-- A concrete well-formed MCQ worth 1 mark. -/
def okQ1 : GeneratedQuestion :=
  { qtype := QType.MCQ
    prompt := "Q1"
    options := [("a", true), ("b", false), ("c", false), ("d", false)]
    answer := "a"
    marks := 1
    sourceChunkIds := ["doc#0"] }

/-- A second concrete well-formed MCQ worth 1 mark. -/
def okQ2 : GeneratedQuestion :=
  { qtype := QType.MCQ
    prompt := "Q2"
    options := [("a", false), ("b", true), ("c", false), ("d", false)]
    answer := "b"
    marks := 1
    sourceChunkIds := ["doc#1"] }

/-- A concrete well-formed SAQ worth 5 marks. -/
def okQ3 : GeneratedQuestion :=
  { qtype := QType.SAQ
    prompt := "Explain"
    options := []
    answer := "Because"
    marks := 5
    sourceChunkIds := ["doc#2"] }

/-- A backend that returns the malformed MCQ on every attempt. -/
def backendW (_n : Nat) : GenResult :=
  Except.ok badQ

/-- A controller in the `ready` state with no latest paper. -/
def ctlRW : Controller :=
  { state := ServiceState.ready, latestPaper := none, failureReason := none }

/-- MCQ results where the second of three calls timed out. -/
def mcqRW : List GenResult :=
  [Except.ok okQ1, Except.error GenFailure.backendTimeout, Except.ok okQ2]

/-- SAQ results where the single call succeeded. -/
def saqRW : List GenResult :=
  [Except.ok okQ3]

/-- A concrete document used by the ingestion witness. -/
def docW : Document :=
  { docId := "doc", text := "abcdefgh".toList }

/-! ### Helper lemmas -/

theorem marksSum_append (a b : List GeneratedQuestion) :
    marksSum (a ++ b) = marksSum a + marksSum b := by
  simp [marksSum]

theorem attemptedFiles_append (a b : List LogEntry) :
    attemptedFiles (a ++ b) = attemptedFiles a ++ attemptedFiles b := by
  simp [attemptedFiles]

theorem attemptedFiles_initControllerLog (o : InitOutcome) :
    attemptedFiles (initControllerLog o) = [] := by
  cases o with
  | importError e => rfl
  | raised e => rfl
  | returned b => cases b <;> rfl

theorem attemptedFiles_ingestLoop (ing : String → Except String Unit)
    (files : List String) :
    attemptedFiles (ingestLoop ing files) = files.filter endsWithPdf := by
  induction files with
  | nil => rfl
  | cons f rest ih =>
    by_cases hf : endsWithPdf f
    · cases hi : ing f <;>
        simp [ingestLoop, hf, hi, attemptedFiles, logFile, List.filter_cons, ih.symm]
    · simp [ingestLoop, hf, List.filter_cons, ih]

/-! ### Claim theorems -/

/-- Claim C1: for every assembled Paper, the `total_marks` field equals the
literal sum of the marks of the questions included in the paper. -/
theorem assemble_total_marks (ps : PaperSpec) (mcqR saqR laqR : List GenResult) :
    marksSum (assemble ps mcqR saqR laqR).questions =
      (assemble ps mcqR saqR laqR).total_marks := by
  simp [assemble, marksSum_append, Nat.add_assoc]

/-- Claim C2: a generation request issued while the controller state is not
`ready` fails with `ServiceNotReady`, the controller — its stored latest
paper included — is unchanged, and no paper is produced. -/
theorem not_ready_rejected (ctl : Controller) (ps : PaperSpec)
    (mcqR saqR laqR : List GenResult) (h : ctl.state ≠ ServiceState.ready) :
    handleGenerate ctl ps mcqR saqR laqR =
        (ctl, Except.error GenError.serviceNotReady) ∧
    (handleGenerate ctl ps mcqR saqR laqR).1.latestPaper = ctl.latestPaper := by
  constructor <;> simp [handleGenerate, h]

/-- Witness for C2 at a concrete uninitialized controller. -/
theorem not_ready_rejected_witness :
    ({ state := ServiceState.uninitialized, latestPaper := none,
        failureReason := none } : Controller).state ≠ ServiceState.ready ∧
      (handleGenerate
          { state := ServiceState.uninitialized, latestPaper := none,
            failureReason := none } psW [] [] [] =
        ({ state := ServiceState.uninitialized, latestPaper := none,
            failureReason := none }, Except.error GenError.serviceNotReady) ∧
      (handleGenerate
          { state := ServiceState.uninitialized, latestPaper := none,
            failureReason := none } psW [] [] []).1.latestPaper =
        ({ state := ServiceState.uninitialized, latestPaper := none,
            failureReason := none } : Controller).latestPaper) :=
  ⟨by decide, not_ready_rejected _ psW [] [] [] (by decide)⟩

/-- Claim C8: the `/health` endpoint always returns status `ok` with
`exam_generation` equal to the import-time flag, and two process states that
agree on the import-time flag — whatever their controller states — receive
the same response, so `/health` never reflects controller state. -/
theorem health_check_constant (st st' : ProcessState)
    (h : st.examGenAvailable = st'.examGenAvailable) :
    (health_check st).status = "ok" ∧
    (health_check st).exam_generation = st.examGenAvailable ∧
    health_check st = health_check st' := by
  refine ⟨rfl, rfl, ?_⟩
  simp [health_check, h]

/-- Witness for C8: a failed-controller state and a ready-controller state
receive the same `ok` response. -/
theorem health_check_constant_witness :
    ({ examGenAvailable := true, servicesAvailable := true,
        controllerState := ServiceState.failed } : ProcessState).examGenAvailable =
      ({ examGenAvailable := true, servicesAvailable := true,
          controllerState := ServiceState.ready } : ProcessState).examGenAvailable ∧
    ((health_check
          { examGenAvailable := true, servicesAvailable := true,
            controllerState := ServiceState.failed }).status = "ok" ∧
      (health_check
          { examGenAvailable := true, servicesAvailable := true,
            controllerState := ServiceState.failed }).exam_generation =
        ({ examGenAvailable := true, servicesAvailable := true,
            controllerState := ServiceState.failed } : ProcessState).examGenAvailable ∧
      health_check
          { examGenAvailable := true, servicesAvailable := true,
            controllerState := ServiceState.failed } =
        health_check
          { examGenAvailable := true, servicesAvailable := true,
            controllerState := ServiceState.ready }) :=
  ⟨rfl, health_check_constant _ _ rfl⟩

/-- Claim C9: during startup ingestion every PDF of the folder is attempted,
whatever the per-file ingestion outcomes are — a failure is swallowed into a
log entry and the loop continues — and `startup_event` is a total function
of the outcomes, so no ingestion exception propagates to its caller. -/
theorem startup_event_attempts_every_pdf (examGen : Bool) (o : InitOutcome)
    (ing : String → Except String Unit) (files : List String) :
    attemptedFiles (startup_event examGen o true ing files) =
      files.filter endsWithPdf := by
  have h1 : attemptedFiles (startup_event examGen o true ing files) =
      attemptedFiles (if examGen then initControllerLog o else []) ++
        attemptedFiles (ingestLoop ing files) := by
    simp only [startup_event, if_pos trivial]
    rw [show attemptedFiles (LogEntry.collectionChecked ::
        ((if examGen then initControllerLog o else []) ++ ingestLoop ing files)) =
        attemptedFiles ((if examGen then initControllerLog o else []) ++
          ingestLoop ing files) from rfl]
    exact attemptedFiles_append _ _
  rw [h1, attemptedFiles_ingestLoop]
  cases examGen with
  | false => simp [attemptedFiles]
  | true => simp [attemptedFiles_initControllerLog]

/-- Claim C10: whatever the outcome of the exam-service controller
initialization — returning `false` or raising included — `startup_event`
continues to the ingestion phase (its log always ends with the ingestion
phase's entries), a raised initialization error is caught and logged, and the
routers registered at import time are served unchanged after startup. -/
theorem startup_survives_init_failure (o : InitOutcome) (e : String)
    (pdfEx : Bool) (ing : String → Except String Unit) (files : List String) :
    (∃ pre, startup_event true o pdfEx ing files =
        pre ++ (if pdfEx then ingestLoop ing files else [LogEntry.noPdfFolder])) ∧
    startup_event true (InitOutcome.raised e) pdfEx ing files =
      LogEntry.collectionChecked :: LogEntry.initServiceMsg :: LogEntry.initErrorMsg e ::
        (if pdfEx then ingestLoop ing files else [LogEntry.noPdfFolder]) ∧
    startup_event true (InitOutcome.returned false) pdfEx ing files =
      LogEntry.collectionChecked :: LogEntry.initServiceMsg :: LogEntry.initFailedMsg ::
        (if pdfEx then ingestLoop ing files else [LogEntry.noPdfFolder]) ∧
    routersAfterStartup true o pdfEx ing files = registeredRouters true := by
  refine ⟨⟨LogEntry.collectionChecked :: initControllerLog o, ?_⟩, ?_, ?_, rfl⟩ <;>
    simp [startup_event, initControllerLog]

theorem successes_length_le (rs : List GenResult) :
    (successes rs).length ≤ rs.length :=
  List.length_filterMap_le _ _

theorem successes_length_lt (rs : List GenResult) (e : GenFailure)
    (h : Except.error e ∈ rs) : (successes rs).length < rs.length := by
  induction rs with
  | nil => cases h
  | cons r rest ih =>
    rcases List.mem_cons.mp h with hr | hr
    · rw [← hr]
      show (successes (Except.error e :: rest)).length < rest.length + 1
      have : successes (Except.error e :: rest) = successes rest := by
        simp [successes]
      rw [this]
      exact Nat.lt_succ_of_le (successes_length_le rest)
    · cases r with
      | ok q =>
        have : successes (Except.ok q :: rest) = q :: successes rest := by
          simp [successes]
        rw [this]
        exact Nat.succ_lt_succ (ih hr)
      | error e' =>
        have : successes (Except.error e' :: rest) = successes rest := by
          simp [successes]
        rw [this]
        exact Nat.lt_succ_of_le (successes_length_le rest)

theorem mem_successes (q : GeneratedQuestion) (rs : List GenResult) :
    q ∈ successes rs ↔ Except.ok q ∈ rs := by
  simp only [successes, List.mem_filterMap]
  constructor
  · rintro ⟨r, hr, he⟩
    cases r with
    | ok q' =>
      simp only [Option.some.injEq] at he
      rw [← he]
      exact hr
    | error e => simp at he
  · intro h
    exact ⟨Except.ok q, h, rfl⟩

/-- Claim C3: every generated question accepted by `generateQuestion` passes
validation — for MCQ: exactly 4 options with distinct labels, exactly one
marked correct, marks positive; an invalid parsed result is retried exactly
once, and a second invalid result fails with `MalformedQuestion` instead of
being returned. -/
theorem generated_mcq_valid (backend : Nat → GenResult)
    (q₀ q₁ : GeneratedQuestion) :
    (∀ q, generateQuestion backend = Except.ok q → validQuestion q = true) ∧
    (∀ q, generateQuestion backend = Except.ok q → q.qtype = QType.MCQ →
      q.options.length = 4 ∧ (q.options.filter (fun o => o.2)).length = 1 ∧
      (q.options.map (fun o => o.1)).Nodup ∧ 0 < q.marks) ∧
    (backend 0 = Except.ok q₀ → validQuestion q₀ = false →
      backend 1 = Except.ok q₁ → validQuestion q₁ = true →
      generateQuestion backend = Except.ok q₁) ∧
    (backend 0 = Except.ok q₀ → validQuestion q₀ = false →
      backend 1 = Except.ok q₁ → validQuestion q₁ = false →
      generateQuestion backend = Except.error GenFailure.malformedQuestion) := by
  have hok : ∀ q, generateQuestion backend = Except.ok q → validQuestion q = true := by
    intro q hq
    rw [generateQuestion] at hq
    split at hq
    next e heq => simp at hq
    next q' heq =>
      split at hq
      next hv =>
        injection hq with h
        rw [← h]
        exact hv
      next hv =>
        split at hq
        next e heq2 => simp at hq
        next q'' heq2 =>
          split at hq
          next hv2 =>
            injection hq with h
            rw [← h]
            exact hv2
          next hv2 => simp at hq
  refine ⟨hok, ?_, ?_, ?_⟩
  · intro q hq hmcq
    have hv := hok q hq
    rw [validQuestion, hmcq] at hv
    simp only [Bool.and_eq_true, decide_eq_true_eq] at hv
    obtain ⟨h1, ⟨h2, h3⟩, h4⟩ := hv
    exact ⟨h2, h3, h4, h1⟩
  · intro hb0 hv0 hb1 hv1
    simp [generateQuestion, hb0, hv0, hb1, hv1]
  · intro hb0 hv0 hb1 hv1
    simp [generateQuestion, hb0, hv0, hb1, hv1]

/-- Witness for C3: a backend that twice returns a malformed MCQ makes
`generateQuestion` fail with `MalformedQuestion`. -/
theorem generated_mcq_valid_witness :
    (backendW 0 = Except.ok badQ ∧ validQuestion badQ = false ∧
      backendW 1 = Except.ok badQ) ∧
    generateQuestion backendW = Except.error GenFailure.malformedQuestion :=
  ⟨⟨rfl, by decide, rfl⟩,
    (generated_mcq_valid backendW badQ badQ).2.2.2 rfl (by decide) rfl (by decide)⟩

/-- Claim C6: when some per-question generation calls fail but others
succeed, a `ready` controller still returns a paper — never an error —
containing exactly the succeeded questions (no placeholder padding), marked
`complete = false` with `content_based = true`, and whose total marks equal
the sum of the succeeded questions' marks. -/
theorem partial_generation_returns_paper (ctl : Controller) (ps : PaperSpec)
    (mcqR saqR laqR : List GenResult) (e : GenFailure)
    (hready : ctl.state = ServiceState.ready)
    (hm : mcqR.length = ps.mcqCount) (hs : saqR.length = ps.saqCount)
    (hl : laqR.length = ps.laqCount)
    (hfail : Except.error e ∈ mcqR ++ saqR ++ laqR) :
    (handleGenerate ctl ps mcqR saqR laqR).2 =
        Except.ok (assemble ps mcqR saqR laqR) ∧
    (assemble ps mcqR saqR laqR).questions =
        successes mcqR ++ successes saqR ++ successes laqR ∧
    (∀ q ∈ (assemble ps mcqR saqR laqR).questions,
        Except.ok q ∈ mcqR ++ saqR ++ laqR) ∧
    (assemble ps mcqR saqR laqR).complete = false ∧
    (assemble ps mcqR saqR laqR).content_based = true ∧
    (assemble ps mcqR saqR laqR).total_marks =
        marksSum (assemble ps mcqR saqR laqR).questions := by
  refine ⟨by simp [handleGenerate, hready], rfl, ?_, ?_, rfl, ?_⟩
  · intro q hq
    have hq' : q ∈ successes mcqR ++ successes saqR ++ successes laqR := hq
    rw [List.mem_append, List.mem_append] at hq'
    rw [List.mem_append, List.mem_append]
    rcases hq' with (h | h) | h
    · exact Or.inl (Or.inl ((mem_successes q mcqR).mp h))
    · exact Or.inl (Or.inr ((mem_successes q saqR).mp h))
    · exact Or.inr ((mem_successes q laqR).mp h)
  · show decide ((successes mcqR).length = ps.mcqCount ∧
      (successes saqR).length = ps.saqCount ∧
      (successes laqR).length = ps.laqCount) = false
    rw [decide_eq_false_iff_not]
    rw [List.mem_append, List.mem_append] at hfail
    rcases hfail with (h | h) | h
    · have hlt := successes_length_lt mcqR e h
      intro hc
      omega
    · have hlt := successes_length_lt saqR e h
      intro hc
      omega
    · have hlt := successes_length_lt laqR e h
      intro hc
      omega
  · show marksSum (successes mcqR) + marksSum (successes saqR) +
        marksSum (successes laqR) =
      marksSum (successes mcqR ++ successes saqR ++ successes laqR)
    simp [marksSum_append, Nat.add_assoc]

/-- Witness for C6: one of three MCQ calls timed out; the paper is returned
with the four succeeded questions, incomplete, with matching total marks. -/
theorem partial_generation_returns_paper_witness :
    (ctlRW.state = ServiceState.ready ∧ mcqRW.length = psW.mcqCount ∧
      saqRW.length = psW.saqCount ∧ ([] : List GenResult).length = psW.laqCount ∧
      Except.error GenFailure.backendTimeout ∈ mcqRW ++ saqRW ++ ([] : List GenResult)) ∧
    ((handleGenerate ctlRW psW mcqRW saqRW []).2 =
        Except.ok (assemble psW mcqRW saqRW []) ∧
      (assemble psW mcqRW saqRW []).complete = false) :=
  ⟨⟨rfl, rfl, rfl, rfl, by simp [mcqRW, saqRW]⟩,
    ⟨(partial_generation_returns_paper ctlRW psW mcqRW saqRW []
        GenFailure.backendTimeout rfl rfl rfl rfl (by simp [mcqRW, saqRW])).1,
      (partial_generation_returns_paper ctlRW psW mcqRW saqRW []
        GenFailure.backendTimeout rfl rfl rfl rfl (by simp [mcqRW, saqRW])).2.2.2.1⟩⟩

theorem indexIds_upsert_of_mem (idx : Index) (id : String) (r : IndexRecord)
    (h : id ∈ indexIds idx) : indexIds (upsert idx id r) = indexIds idx := by
  have hany : idx.any (fun e => decide (e.1 = id)) = true := by
    rw [List.any_eq_true]
    rcases List.mem_map.mp h with ⟨e, he, hfst⟩
    exact ⟨e, he, by simp [hfst]⟩
  simp only [upsert]
  rw [if_pos hany]
  simp only [indexIds, List.map_map]
  apply List.map_congr_left
  intro e _
  by_cases hh : e.1 = id
  · simp [Function.comp, hh]
  · simp [Function.comp, hh]

theorem indexIds_upsert_of_not_mem (idx : Index) (id : String) (r : IndexRecord)
    (h : id ∉ indexIds idx) : indexIds (upsert idx id r) = indexIds idx ++ [id] := by
  have hany : idx.any (fun e => decide (e.1 = id)) = false := by
    rw [List.any_eq_false]
    intro e he
    simp only [decide_eq_true_eq]
    intro hfst
    exact h (List.mem_map.mpr ⟨e, he, hfst⟩)
  simp only [upsert]
  rw [if_neg (by rw [hany]; exact Bool.false_ne_true)]
  simp [indexIds]

theorem mem_indexIds_upsert_self (idx : Index) (id : String) (r : IndexRecord) :
    id ∈ indexIds (upsert idx id r) := by
  by_cases h : id ∈ indexIds idx
  · rw [indexIds_upsert_of_mem idx id r h]
    exact h
  · rw [indexIds_upsert_of_not_mem idx id r h]
    simp

theorem mem_indexIds_upsert_mono (idx : Index) (a id : String) (r : IndexRecord)
    (h : a ∈ indexIds idx) : a ∈ indexIds (upsert idx id r) := by
  by_cases hm : id ∈ indexIds idx
  · rw [indexIds_upsert_of_mem idx id r hm]
    exact h
  · rw [indexIds_upsert_of_not_mem idx id r hm]
    exact List.mem_append_left _ h

theorem nodup_indexIds_upsert (idx : Index) (id : String) (r : IndexRecord)
    (h : (indexIds idx).Nodup) : (indexIds (upsert idx id r)).Nodup := by
  by_cases hm : id ∈ indexIds idx
  · rw [indexIds_upsert_of_mem idx id r hm]
    exact h
  · rw [indexIds_upsert_of_not_mem idx id r hm]
    simp [List.nodup_append, h, hm]

theorem mem_indexIds_foldl_mono : ∀ (recs : List (String × IndexRecord)) (idx : Index)
    (a : String), a ∈ indexIds idx →
    a ∈ indexIds (recs.foldl (fun acc p => upsert acc p.1 p.2) idx) := by
  intro recs
  induction recs with
  | nil => intro idx a h; exact h
  | cons q rest ih =>
    intro idx a h
    rw [List.foldl_cons]
    exact ih _ a (mem_indexIds_upsert_mono idx a q.1 q.2 h)

theorem mem_indexIds_foldl_self : ∀ (recs : List (String × IndexRecord)) (idx : Index)
    (p : String × IndexRecord), p ∈ recs →
    p.1 ∈ indexIds (recs.foldl (fun acc q => upsert acc q.1 q.2) idx) := by
  intro recs
  induction recs with
  | nil => intro idx p hp; cases hp
  | cons q rest ih =>
    intro idx p hp
    rw [List.foldl_cons]
    rcases List.mem_cons.mp hp with hq | hq
    · rw [hq]
      exact mem_indexIds_foldl_mono rest _ q.1 (mem_indexIds_upsert_self idx q.1 q.2)
    · exact ih _ p hq

theorem indexIds_foldl_of_all_mem : ∀ (recs : List (String × IndexRecord)) (idx : Index),
    (∀ p ∈ recs, p.1 ∈ indexIds idx) →
    indexIds (recs.foldl (fun acc q => upsert acc q.1 q.2) idx) = indexIds idx := by
  intro recs
  induction recs with
  | nil => intro idx _; rfl
  | cons q rest ih =>
    intro idx h
    rw [List.foldl_cons]
    have h1 : q.1 ∈ indexIds idx := h q (List.mem_cons_self q rest)
    have heq := indexIds_upsert_of_mem idx q.1 q.2 h1
    have hall : ∀ p ∈ rest, p.1 ∈ indexIds (upsert idx q.1 q.2) := by
      intro p hp
      rw [heq]
      exact h p (List.mem_cons_of_mem q hp)
    rw [ih (upsert idx q.1 q.2) hall, heq]

theorem nodup_indexIds_foldl : ∀ (recs : List (String × IndexRecord)) (idx : Index),
    (indexIds idx).Nodup →
    (indexIds (recs.foldl (fun acc q => upsert acc q.1 q.2) idx)).Nodup := by
  intro recs
  induction recs with
  | nil => intro idx h; exact h
  | cons q rest ih =>
    intro idx h
    rw [List.foldl_cons]
    exact ih _ (nodup_indexIds_upsert idx q.1 q.2 h)

/-- Claim C4: ingestion is idempotent — ingesting the same document twice
yields the same list of indexed chunk ids as ingesting it once (ids are
derived deterministically from document id and chunk position, and upsert
overwrites), the index cardinality is unchanged by the second run, and no
duplicate ids are created. -/
theorem ingest_idempotent (size overlap : Nat) (emb : List Char → List Int)
    (doc : Document) (idx : Index) (hnd : (indexIds idx).Nodup) :
    indexIds (ingestDoc size overlap emb doc (ingestDoc size overlap emb doc idx)) =
        indexIds (ingestDoc size overlap emb doc idx) ∧
    (ingestDoc size overlap emb doc (ingestDoc size overlap emb doc idx)).length =
        (ingestDoc size overlap emb doc idx).length ∧
    (indexIds (ingestDoc size overlap emb doc idx)).Nodup := by
  have hall : ∀ p ∈ chunkRecords size overlap emb doc,
      p.1 ∈ indexIds (ingestDoc size overlap emb doc idx) :=
    fun p hp => mem_indexIds_foldl_self _ idx p hp
  have heq : indexIds (ingestDoc size overlap emb doc
        (ingestDoc size overlap emb doc idx)) =
      indexIds (ingestDoc size overlap emb doc idx) :=
    indexIds_foldl_of_all_mem _ _ hall
  refine ⟨heq, ?_, nodup_indexIds_foldl _ idx hnd⟩
  have hlen := congrArg List.length heq
  simpa [indexIds] using hlen

/-- Witness for C4 on a concrete document and the empty index. -/
theorem ingest_idempotent_witness :
    (indexIds ([] : Index)).Nodup ∧
    (indexIds (ingestDoc 4 1 (fun _ => []) docW (ingestDoc 4 1 (fun _ => []) docW [])) =
        indexIds (ingestDoc 4 1 (fun _ => []) docW []) ∧
      (ingestDoc 4 1 (fun _ => []) docW (ingestDoc 4 1 (fun _ => []) docW [])).length =
        (ingestDoc 4 1 (fun _ => []) docW []).length ∧
      (indexIds (ingestDoc 4 1 (fun _ => []) docW [])).Nodup) :=
  ⟨List.nodup_nil, ingest_idempotent 4 1 (fun _ => []) docW [] List.nodup_nil⟩

theorem reassembleTail_cons (overlap : Nat) (c : List Char) (cs : List (List Char)) :
    reassembleTail overlap (c :: cs) = c.drop overlap ++ reassembleTail overlap cs := by
  simp [reassembleTail]

theorem reassembleTail_chunk (size overlap : Nat) (hso : overlap < size) :
    ∀ (n : Nat) (u : List Char), u.length ≤ n → u ≠ [] →
      reassembleTail overlap (chunk size overlap u) = u.drop overlap := by
  intro n
  induction n with
  | zero =>
    intro u hu hne
    exact absurd (List.eq_nil_of_length_eq_zero (Nat.le_zero.mp hu)) hne
  | succ n ih =>
    intro u hu hne
    rw [chunk, if_neg hne]
    by_cases hle : u.length ≤ size
    · rw [if_pos hle]
      simp [reassembleTail]
    · rw [if_neg hle]
      have hsz : max 1 (size - overlap) = size - overlap := by omega
      rw [hsz]
      have hlen : 0 < (u.drop (size - overlap)).length := by
        rw [List.length_drop]
        omega
      have hne2 : u.drop (size - overlap) ≠ [] := List.ne_nil_of_length_pos hlen
      have hle2 : (u.drop (size - overlap)).length ≤ n := by
        rw [List.length_drop]
        omega
      rw [reassembleTail_cons, ih _ hle2 hne2, List.drop_take, List.drop_drop]
      have h1 : size - overlap + overlap = size := by omega
      rw [h1]
      have h2 : (u.drop overlap).drop (size - overlap) = u.drop size := by
        rw [List.drop_drop]
        congr 1
        omega
      rw [← h2, List.take_append_drop]

theorem chunk_ne_nil (size overlap : Nat) (hsize : 0 < size) :
    ∀ (n : Nat) (t : List Char), t.length ≤ n → ∀ c ∈ chunk size overlap t, c ≠ [] := by
  intro n
  induction n with
  | zero =>
    intro t ht c hc
    rw [List.eq_nil_of_length_eq_zero (Nat.le_zero.mp ht), chunk] at hc
    simp at hc
  | succ n ih =>
    intro t ht c hc
    rw [chunk] at hc
    by_cases hne : t = []
    · rw [if_pos hne] at hc
      simp at hc
    · rw [if_neg hne] at hc
      by_cases hle : t.length ≤ size
      · rw [if_pos hle] at hc
        rw [List.mem_singleton.mp hc]
        exact hne
      · rw [if_neg hle] at hc
        rcases List.mem_cons.mp hc with hc1 | hc2
        · rw [hc1]
          apply List.ne_nil_of_length_pos
          rw [List.length_take]
          have hpos : 0 < t.length := List.length_pos.mpr hne
          omega
        · apply ih (t.drop (max 1 (size - overlap))) ?_ c hc2
          rw [List.length_drop]
          omega

/-- Claim C5: for every document text, the chunk sequence produced by the
Chunker, reassembled by removing the overlap head of every chunk after the
first, reconstructs the text exactly, and no produced chunk is empty. -/
theorem chunk_roundtrip (size overlap : Nat) (hso : overlap < size) (t : List Char) :
    reassemble overlap (chunk size overlap t) = t ∧
    ∀ c ∈ chunk size overlap t, c ≠ [] := by
  constructor
  · by_cases hne : t = []
    · rw [hne, chunk]
      simp [reassemble]
    · rw [chunk, if_neg hne]
      by_cases hle : t.length ≤ size
      · rw [if_pos hle]
        simp [reassemble, reassembleTail]
      · rw [if_neg hle]
        have hsz : max 1 (size - overlap) = size - overlap := by omega
        rw [hsz]
        have hlen : 0 < (t.drop (size - overlap)).length := by
          rw [List.length_drop]
          omega
        have hne2 : t.drop (size - overlap) ≠ [] := List.ne_nil_of_length_pos hlen
        show t.take size ++
            reassembleTail overlap (chunk size overlap (t.drop (size - overlap))) = t
        rw [reassembleTail_chunk size overlap hso (t.drop (size - overlap)).length _
          (Nat.le_refl _) hne2]
        rw [List.drop_drop]
        have h1 : size - overlap + overlap = size := by omega
        rw [h1, List.take_append_drop]
  · exact fun c hc =>
      chunk_ne_nil size overlap (by omega) t.length t (Nat.le_refl _) c hc

/-- Witness for C5 at size 4, overlap 1, on a concrete 8-character text. -/
theorem chunk_roundtrip_witness :
    1 < 4 ∧
    (reassemble 1 (chunk 4 1 "abcdefgh".toList) = "abcdefgh".toList ∧
      ∀ c ∈ chunk 4 1 "abcdefgh".toList, c ≠ []) :=
  ⟨by decide, chunk_roundtrip 4 1 (by decide) "abcdefgh".toList⟩

/-- Claim C7: `ensure_collection` creates the collection when absent; it is
idempotent — a second call with the same dimension succeeds and leaves the
collections unchanged; and a dimension conflict with the existing collection
fails directly with `SchemaMismatch`. -/
theorem ensure_collection_spec (cols : Collections) (name : String) (dim d' : Nat) :
    (cols.find? (fun c => decide (c.1 = name)) = none →
      ensure_collection cols name dim = Except.ok (cols ++ [(name, dim)])) ∧
    (∀ cols', ensure_collection cols name dim = Except.ok cols' →
      ensure_collection cols' name dim = Except.ok cols') ∧
    (cols.find? (fun c => decide (c.1 = name)) = some (name, d') → d' ≠ dim →
      ensure_collection cols name dim = Except.error IndexErr.schemaMismatch) := by
  refine ⟨?_, ?_, ?_⟩
  · intro h
    simp [ensure_collection, h]
  · intro cols' h
    cases hf : cols.find? (fun c => decide (c.1 = name)) with
    | none =>
      simp only [ensure_collection, hf] at h
      injection h with h2
      rw [← h2]
      simp [ensure_collection, List.find?_append, hf, List.find?]
    | some c =>
      simp only [ensure_collection, hf] at h
      by_cases hd : c.2 = dim
      · rw [if_pos hd] at h
        injection h with h2
        rw [← h2]
        simp [ensure_collection, hf, hd]
      · rw [if_neg hd] at h
        simp at h
  · intro hf hd
    simp [ensure_collection, hf, hd]

/-- Witness for C7: creation on the empty server, idempotent re-check, and a
dimension conflict. -/
theorem ensure_collection_spec_witness :
    (([] : Collections).find? (fun c => decide (c.1 = "col")) = none ∧
      [("col", 4)].find? (fun c => decide (c.1 = "col")) = some ("col", 4) ∧
      (4 : Nat) ≠ 3) ∧
    (ensure_collection [] "col" 3 = Except.ok [("col", 3)] ∧
      ensure_collection [("col", 3)] "col" 3 = Except.ok [("col", 3)] ∧
      ensure_collection [("col", 4)] "col" 3 = Except.error IndexErr.schemaMismatch) :=
  ⟨⟨rfl, by decide, by decide⟩,
    ⟨(ensure_collection_spec [] "col" 3 4).1 rfl,
      (ensure_collection_spec [] "col" 3 4).2.1 [("col", 3)]
        ((ensure_collection_spec [] "col" 3 4).1 rfl),
      (ensure_collection_spec [("col", 4)] "col" 3 4).2.2 (by decide) (by decide)⟩⟩

end PaperGen
